import Mathlib

set_option maxRecDepth 20000

/-!
A shallow embedding of the psqs job-dispatch code: the Pbs submission
helper and status parsing in src/queue/pbs.rs, the Local executor in
src/queue/local.rs, and the Dump cleanup worker in
src/queue/drain/dump.rs.  Rust strings are modelled as Lean strings,
with whitespace splitting, trimming and substring search defined over
the underlying character lists.  Subprocess execution is modelled by an
explicit trace of attempt outcomes, and the Dump worker thread by an
explicit interleaving parameter saying at which checks the stop signal
is observed.
-/

namespace Psqs

/-- Rust str::trim: drop leading and trailing whitespace characters. -/
def trimChars (s : List Char) : List Char :=
  ((s.dropWhile Char.isWhitespace).reverse.dropWhile Char.isWhitespace).reverse

/-- Accumulator loop for Rust str::split_whitespace: split at runs of
whitespace, producing no empty tokens.  `acc` is the token being read. -/
def splitWsGo (acc : List Char) : List Char → List (List Char)
  | [] => if acc.isEmpty then [] else [acc]
  | c :: cs =>
    if c.isWhitespace then
      (if acc.isEmpty then [] else [acc]) ++ splitWsGo [] cs
    else
      splitWsGo (acc ++ [c]) cs

/-- Rust str::split_whitespace as a list of tokens. -/
def splitWs (s : List Char) : List (List Char) := splitWsGo [] s

/-- Rust str::contains with a string pattern: substring search. -/
def containsSub (pat : List Char) : List Char → Bool
  | [] => pat.isEmpty
  | c :: cs => pat.isPrefixOf (c :: cs) || containsSub pat cs

/-- Loop of Rust str::replace, structurally recursive on a fuel argument
so that it computes by kernel reduction: at each position, if the pattern
matches, emit the replacement and skip the match, else emit the character
and advance one.  Each step consumes at least one character, so fuel equal
to the length of the scanned list never runs out. -/
def replaceAllGo (pat repl : List Char) : Nat → List Char → List Char
  | _, [] => []
  | 0, s => s
  | n + 1, c :: cs =>
    if !pat.isEmpty && pat.isPrefixOf (c :: cs) then
      repl ++ replaceAllGo pat repl n (cs.drop (pat.length - 1))
    else
      c :: replaceAllGo pat repl n cs

/-- Rust str::replace: replace every non-overlapping occurrence of `pat`,
scanning left to right.  Call sites only use non-empty literal patterns. -/
def replaceAll (pat repl s : List Char) : List Char :=
  replaceAllGo pat repl s.length s

/-- String-level wrapper for Rust s.contains(pat). -/
def strContains (s pat : String) : Bool := containsSub pat.data s.data

/-- String-level wrapper for Rust s.replace(pat, repl). -/
def strReplace (s pat repl : String) : String := ⟨replaceAll pat.data repl.data s.data⟩

/-- Rust Path::file_name for a regular file path: the component after the
final slash.  Call sites in pbs.rs always pass a regular file path, so the
None cases of Path::file_name (paths ending in .. or in a slash) are not
modelled. -/
def file_name (p : String) : String :=
  ⟨(p.data.reverse.takeWhile (fun c => c != '/')).reverse⟩

/-- Rust Path::parent for a regular file path: everything before the final
slash (without the slash itself); empty when the path has one component. -/
def parent (p : String) : String :=
  ⟨((p.data.reverse.dropWhile (fun c => c != '/')).drop 1).reverse⟩

/-- The jobid extraction of submit_inner (pbs.rs lines 102-108): the last
whitespace-delimited token of the trimmed stdout, or the sentinel when
there is no token. -/
def extract_jobid (stdout : String) : String :=
  let raw := trimChars stdout.data
  match (splitWs raw).getLast? with
  | some t => ⟨t⟩
  | none => "no jobid"

/-- Captured output of one subprocess execution, as std::process::Output:
whether the exit status was success, plus stdout and stderr. -/
structure Output where
  success : Bool
  stdout : String
  stderr : String
deriving DecidableEq

/-- Outcome of one cmd.output() call: the subprocess ran and produced
an Output, or the spawn itself failed with an io::Error. -/
inductive Attempt where
  | out (o : Output)
  | ioErr (e : String)
deriving DecidableEq

/-- What submit_inner does on return: Ok(jobid), Err(io error), or a
process-terminating panic carrying the captured output it reports. -/
inductive SubmitResult where
  | ok (jobid : String)
  | err (e : String)
  | panicked (o : Output)
deriving DecidableEq

/-- The retry loop of submit_inner (pbs.rs lines 80-113).  `trace i` is
the outcome of the i-th cmd.output() call; `retries` counts the retries
still allowed, starting at 5.  Returns the result together with the total
seconds slept (one sleep of sleep_int before every retry). -/
def submit_inner_go (sleep_int retries : Nat) (trace : Nat → Attempt) (i : Nat) :
    SubmitResult × Nat :=
  match trace i with
  | .ioErr e => (.err e, 0)
  | .out o =>
    if o.success then
      (.ok (extract_jobid o.stdout), 0)
    else
      match retries with
      | 0 => (.panicked o, 0)
      | r + 1 =>
        let p := submit_inner_go sleep_int r trace (i + 1)
        (p.1, sleep_int + p.2)

/-- submit_inner: the loop entered with retries = 5 at the first attempt. -/
def submit_inner (sleep_int : Nat) (trace : Nat → Attempt) : SubmitResult × Nat :=
  submit_inner_go sleep_int 5 trace 0

/-- The i-th execution ran and exited non-zero. -/
def FailsAt (trace : Nat → Attempt) (i : Nat) : Prop :=
  ∃ o, trace i = .out o ∧ o.success = false

/-- An external command invocation: program, arguments, and the working
directory set on the subprocess, if any. -/
structure CommandSpec where
  program : String
  args : List String
  cwd : Option String
deriving DecidableEq

/-- The Pbs queue configuration (pbs.rs lines 19-26). -/
structure Pbs where
  chunk_size : Nat
  job_limit : Nat
  sleep_int : Nat
  dir : String
  no_del : Bool
  template : Option String

/-- SubQueue::submit_command for Pbs (pbs.rs line 233). -/
def Pbs.submit_command (_ : Pbs) : String := "qsub"

/-- The command built by the Molpro-variant submit (pbs.rs lines 67-74):
the submit command invoked with only the base filename as argument, with
the working directory set to the containing directory of the script. -/
def Pbs.molpro_submit_cmd (q : Pbs) (filename : String) : CommandSpec :=
  { program := q.submit_command, args := [file_name filename],
    cwd := some (parent filename) }

/-- The command built by the Mopac-variant submit (pbs.rs lines 53-57):
qsub -f with the full filename, in the inherited working directory. -/
def Pbs.mopac_submit_cmd (q : Pbs) (filename : String) : CommandSpec :=
  { program := q.submit_command, args := ["-f", filename], cwd := none }

/-- The dash marker that Pbs::status looks for to find the end of the
qstat header (pbs.rs line 278). -/
def dashes : String := "-----------"

/-- The loop body of Pbs::status (pbs.rs lines 279-283): split each line
on whitespace, assert exactly 11 fields, insert field 0.  An assertion
failure is modelled as an error; the inserted first fields are returned
in order (the Rust HashSet is observed through membership). -/
def pbsStatusGo : List String → Except String (List String)
  | [] => .ok []
  | l :: ls =>
    let fields := splitWs l.data
    if fields.length = 11 then
      match pbsStatusGo ls with
      | .ok ids => .ok ((⟨fields.headD []⟩ : String) :: ids)
      | .error e => .error e
    else
      .error "assertion failed: fields.len() == 11"

/-- Pbs::status (pbs.rs lines 274-285) on the lines of the qstat output:
skip_while the line does not contain the dash marker, then process every
remaining line. -/
def pbs_status (lines : List String) : Except String (List String) :=
  pbsStatusGo (lines.dropWhile (fun l => !(strContains l dashes)))

/-- The qstat output documented in pbs.rs lines 256-260: a host line and
a column-caption line before the header row. -/
def qstat_maple_preamble : List String :=
  ["maple:",
   "                                                            Req\x27d  Req\x27d   Elap"]

/-- The header row of the documented qstat output. -/
def qstat_maple_header : String :=
  "Job ID          Username Queue    Jobname    SessID NDS TSK Memory Time  S Time"

/-- The dashed divider row of the documented qstat output. -/
def qstat_maple_divider : String :=
  "--------------- -------- -------- ---------- ------ --- --- ------ ----- - -----"

/-- The one data row of the documented qstat output. -/
def qstat_maple_row : String :=
  "819446          user     queue    C6HNpts      5085   1   1    8gb 26784 R 00:00"

/-- The documented qstat output as a list of lines. -/
def qstat_maple : List String :=
  qstat_maple_preamble ++ [qstat_maple_header, qstat_maple_divider, qstat_maple_row]

/-- The basename placeholder token of the submit-script templates. -/
def basename_token : String := "\x7b\x7b.basename\x7d\x7d"

/-- The filename placeholder token of the submit-script templates. -/
def filename_token : String := "\x7b\x7b.filename\x7d\x7d"

/-- Queue::default_submit_script for the Molpro variant (pbs.rs lines
154-174). -/
def molpro_default_submit_script : String :=
  "#!/bin/sh\n#PBS -N \x7b\x7b.basename\x7d\x7d\n#PBS -S /bin/bash\n#PBS -j oe\n#PBS -o \x7b\x7b.basename\x7d\x7d.out\n#PBS -W umask=022\n#PBS -l walltime=1000:00:00\n#PBS -l ncpus=1\n#PBS -l mem=8gb\n#PBS -q workq\n\nmodule load openpbs molpro\n\nexport WORKDIR=$PBS_O_WORKDIR\nexport TMPDIR=/tmp/$USER/$PBS_JOBID\ncd $WORKDIR\nmkdir -p $TMPDIR\n"

/-- Queue::default_submit_script for the Mopac variant (pbs.rs lines
206-225). -/
def mopac_default_submit_script : String :=
  "#!/bin/sh\n#PBS -N \x7b\x7b.basename\x7d\x7d\n#PBS -S /bin/bash\n#PBS -j oe\n#PBS -o \x7b\x7b.filename\x7d\x7d.out\n#PBS -W umask=022\n#PBS -l walltime=1000:00:00\n#PBS -l ncpus=1\n#PBS -l mem=1gb\n#PBS -q workq\n\nmodule load openpbs\n\nexport WORKDIR=$PBS_O_WORKDIR\ncd $WORKDIR\n\n"

/-- The file content written by the Molpro-variant write_submit_script
(pbs.rs lines 121-152): the template (caller override or built-in
default) with only the basename token replaced, one molpro invocation
line per input file (the basename printed in Rust Debug form, modelled
as plain quoting), and a trailing scratch cleanup line. -/
def molpro_write_body (q : Pbs) (infiles : List String) (filename : String) : String :=
  let basename := file_name filename
  let body := strReplace (q.template.getD molpro_default_submit_script) basename_token basename
  let body := infiles.foldl
    (fun b f => b ++ "molpro -t $NCPUS --no-xml-output \"" ++ file_name f ++ "\".inp\n") body
  body ++ "rm -rf $TMPDIR\n"

/-- The file content written by the Mopac-variant write_submit_script
(pbs.rs lines 180-204): the template with the basename token and then
the filename token replaced, and one mopac invocation line per input
file. -/
def mopac_write_body (q : Pbs) (infiles : List String) (filename : String) : String :=
  let basename := file_name filename
  let body :=
    strReplace (strReplace (q.template.getD mopac_default_submit_script) basename_token basename)
      filename_token filename
  infiles.foldl
    (fun b f => b ++ "/ddn/home1/r2518/Packages/mopac/build/mopac " ++ f ++ ".mop\n") body

/-- A Pbs configuration carrying only a template, for concrete instances. -/
def pbs0 (template : Option String) : Pbs :=
  { chunk_size := 0, job_limit := 0, sleep_int := 0, dir := "", no_del := false,
    template := template }

/-- The Local executor state (local.rs lines 14-18). -/
structure Local where
  dir : String
  chunk_size : Nat
  mopac : String
deriving DecidableEq

/-- Local::new (local.rs lines 31-44): the job_limit, sleep_int, no_del
and template arguments are received but never stored. -/
def Local.new (chunk_size : Nat) (_job_limit : Nat) (_sleep_int : Nat)
    (dir : String) (_no_del : Bool) (_template : Option String) : Local :=
  { dir := dir, chunk_size := chunk_size, mopac := "/opt/mopac/mopac" }

/-- SubQueue::job_limit for Local (local.rs lines 93-95). -/
def Local.job_limit (_ : Local) : Nat := 1600

/-- SubQueue::sleep_int for Local (local.rs lines 97-99). -/
def Local.sleep_int (_ : Local) : Nat := 1

/-- SubQueue::no_del for Local (local.rs lines 126-128). -/
def Local.no_del (_ : Local) : Bool := false

/-- How a call of the Local status method ends: a panic, or a normal
return of a set of job ids. -/
inductive LocalStatus where
  | panicked (msg : String)
  | returned (ids : List String)
deriving DecidableEq

/-- The loop of Local status (local.rs lines 111-124) over the fixed
directory list.  readDir d is the result of std::fs::read_dir(d) giving
the entry paths, readFile f the result of read_to_string(f); an Err in
either is an unwrap panic.  After the loop the method always panics. -/
def read_all (readFile : String → Except String String) (entries : List String) :
    Option String :=
  entries.findSome? (fun f =>
    match readFile f with
    | .error e => some e
    | .ok _ => none)

def local_status_dirs (readDir : String → Except String (List String))
    (readFile : String → Except String String) : List String → LocalStatus
  | [] => .panicked "no status available for Local queue"
  | d :: ds =>
    match readDir d with
    | .error e => .panicked e
    | .ok entries =>
      match read_all readFile entries with
      | some e => .panicked e
      | none => local_status_dirs readDir readFile ds

/-- SubQueue::status for Local: the loop over opt, pts and freqs. -/
def local_status (readDir : String → Except String (List String))
    (readFile : String → Except String String) : LocalStatus :=
  local_status_dirs readDir readFile ["opt", "pts", "freqs"]

/-- The Dump worker loop (dump.rs lines 24-34).  The worker receives the
queued filenames in order; before deleting each one it try_recvs the stop
signal and returns at once if the signal is there.  `signalAt i` says
whether the try_recv before the i-th file observes the signal (the signal
send is a rendezvous that shutdown starts after closing the channel, so
any interleaving of checks may observe it); `delOk f` says whether
remove_file(f) succeeds.  Returns the filenames passed to remove_file in
order, and the failures logged to stderr. -/
def dump_worker (signalAt : Nat → Bool) (delOk : String → Bool) :
    List String → Nat → List String × List String
  | [], _ => ([], [])
  | f :: fs, i =>
    if signalAt i then ([], [])
    else
      let p := dump_worker signalAt delOk fs (i + 1)
      (f :: p.1, (if delOk f then [] else [f]) ++ p.2)

/-! ## Helper lemmas -/

theorem replaceAllGo_of_not_contains (pat repl : List Char) :
    ∀ (n : Nat) (s : List Char), containsSub pat s = false →
      replaceAllGo pat repl n s = s := by
  intro n
  induction n with
  | zero => intro s _; cases s <;> rfl
  | succ n ih =>
    intro s hc
    cases s with
    | nil => rfl
    | cons c cs =>
      rw [containsSub] at hc
      rw [Bool.or_eq_false_iff] at hc
      obtain ⟨h1, h2⟩ := hc
      simp only [replaceAllGo]
      simp [h1, ih cs h2]

theorem replaceAll_of_not_contains (pat repl : List Char) :
    ∀ s : List Char, containsSub pat s = false → replaceAll pat repl s = s :=
  fun s hc => replaceAllGo_of_not_contains pat repl s.length s hc

theorem submit_inner_go_ok (sleep_int : Nat) :
    ∀ (k r i : Nat) (trace : Nat → Attempt) (o : Output), k ≤ r →
      (∀ j, j < k → FailsAt trace (i + j)) →
      trace (i + k) = .out o → o.success = true →
      submit_inner_go sleep_int r trace i = (.ok (extract_jobid o.stdout), k * sleep_int) := by
  intro k
  induction k with
  | zero =>
    intro r i trace o _ _ hk hs
    rw [Nat.add_zero] at hk
    rw [submit_inner_go, hk]
    simp [hs]
  | succ k ih =>
    intro r i trace o hkr hfail hk hs
    obtain ⟨o0, h00, h0f⟩ := hfail 0 (Nat.succ_pos k)
    rw [Nat.add_zero] at h00
    cases r with
    | zero => exact absurd hkr (by omega)
    | succ r =>
      have hfail2 : ∀ j, j < k → FailsAt trace (i + 1 + j) := by
        intro j hj
        have := hfail (j + 1) (by omega)
        have he : i + (j + 1) = i + 1 + j := by omega
        rwa [he] at this
      have hk2 : trace (i + 1 + k) = .out o := by
        have he : i + (k + 1) = i + 1 + k := by omega
        rwa [he] at hk
      rw [submit_inner_go, h00]
      simp only [h0f, Bool.false_eq_true, if_false]
      rw [ih r (i + 1) trace o (by omega) hfail2 hk2 hs]
      refine Prod.ext rfl ?_
      simp [Nat.succ_mul]
      omega

theorem submit_inner_go_panic (sleep_int : Nat) :
    ∀ (r i : Nat) (trace : Nat → Attempt),
      (∀ j, j ≤ r → FailsAt trace (i + j)) →
      ∃ o, trace (i + r) = .out o ∧ o.success = false ∧
        submit_inner_go sleep_int r trace i = (.panicked o, r * sleep_int) := by
  intro r
  induction r with
  | zero =>
    intro i trace h
    obtain ⟨o, ho, hf⟩ := h 0 (Nat.le_refl 0)
    rw [Nat.add_zero] at ho
    refine ⟨o, by rwa [Nat.add_zero], hf, ?_⟩
    rw [submit_inner_go, ho]
    simp [hf]
  | succ r ih =>
    intro i trace h
    obtain ⟨o0, h00, h0f⟩ := h 0 (Nat.zero_le _)
    rw [Nat.add_zero] at h00
    have h2 : ∀ j, j ≤ r → FailsAt trace (i + 1 + j) := by
      intro j hj
      have := h (j + 1) (by omega)
      have he : i + (j + 1) = i + 1 + j := by omega
      rwa [he] at this
    obtain ⟨o, ho, hof, hgo⟩ := ih (i + 1) trace h2
    refine ⟨o, ?_, hof, ?_⟩
    · have he : i + 1 + r = i + (r + 1) := by omega
      rwa [he] at ho
    · rw [submit_inner_go, h00]
      simp only [h0f, Bool.false_eq_true, if_false]
      rw [hgo]
      refine Prod.ext rfl ?_
      simp [Nat.succ_mul]
      omega

theorem submit_inner_go_panic_inv (sleep_int : Nat) :
    ∀ (r i : Nat) (trace : Nat → Attempt) (o2 : Output),
      (submit_inner_go sleep_int r trace i).1 = .panicked o2 →
      ∀ j, j ≤ r → FailsAt trace (i + j) := by
  intro r
  induction r with
  | zero =>
    intro i trace o2 h j hj
    have hj0 : j = 0 := by omega
    subst hj0
    rw [Nat.add_zero]
    cases ht : trace i with
    | ioErr e => rw [submit_inner_go, ht] at h; exact absurd h (by simp)
    | out o' =>
      cases hs : o'.success with
      | true => rw [submit_inner_go, ht] at h; simp [hs] at h
      | false => exact ⟨o', ht, hs⟩
  | succ r ih =>
    intro i trace o2 h j hj
    cases ht : trace i with
    | ioErr e => rw [submit_inner_go, ht] at h; exact absurd h (by simp)
    | out o' =>
      cases hs : o'.success with
      | true => rw [submit_inner_go, ht] at h; simp [hs] at h
      | false =>
        cases j with
        | zero => rw [Nat.add_zero]; exact ⟨o', ht, hs⟩
        | succ j =>
          rw [submit_inner_go, ht] at h
          simp only [hs, Bool.false_eq_true, if_false] at h
          have h2 : (submit_inner_go sleep_int r trace (i + 1)).1 = .panicked o2 := h
          have := ih (i + 1) trace o2 h2 j (by omega)
          have he : i + 1 + j = i + (j + 1) := by omega
          rwa [he] at this

theorem pbsStatusGo_error_iff :
    ∀ rows : List String,
      (∃ e, pbsStatusGo rows = .error e) ↔ ∃ l ∈ rows, (splitWs l.data).length ≠ 11 := by
  intro rows
  induction rows with
  | nil => simp [pbsStatusGo]
  | cons l ls ih =>
    by_cases h : (splitWs l.data).length = 11
    · rw [pbsStatusGo]
      simp only [h, if_true]
      cases hgo : pbsStatusGo ls with
      | ok ids =>
        have hno : ¬∃ l ∈ ls, (splitWs l.data).length ≠ 11 := by
          rw [← ih]
          rintro ⟨e, he⟩
          rw [hgo] at he
          exact absurd he (by simp)
        simp only [hgo]
        constructor
        · rintro ⟨e, he⟩; exact absurd he (by simp)
        · rintro ⟨l', hl', hbad⟩
          rcases List.mem_cons.mp hl' with rfl | hmem
          · exact absurd h hbad
          · exact absurd ⟨l', hmem, hbad⟩ hno
      | error e =>
        obtain ⟨l', hl', hbad⟩ := ih.mp ⟨e, hgo⟩
        simp only [hgo]
        constructor
        · intro _; exact ⟨l', by simp [hl'], hbad⟩
        · intro _; exact ⟨e, rfl⟩
    · rw [pbsStatusGo]
      simp only [h, if_false]
      constructor
      · intro _; exact ⟨l, by simp, h⟩
      · intro _; exact ⟨_, rfl⟩

theorem local_status_dirs_panics (readDir : String → Except String (List String))
    (readFile : String → Except String String) :
    ∀ ds : List String, ∃ msg, local_status_dirs readDir readFile ds = .panicked msg := by
  intro ds
  induction ds with
  | nil => exact ⟨_, rfl⟩
  | cons d ds ih =>
    obtain ⟨msg, hmsg⟩ := ih
    cases hd : readDir d with
    | error e =>
      refine ⟨e, ?_⟩
      simp only [local_status_dirs, hd]
    | ok entries =>
      cases hf : read_all readFile entries with
      | some e =>
        refine ⟨e, ?_⟩
        simp only [local_status_dirs, hd, hf]
      | none =>
        refine ⟨msg, ?_⟩
        simp only [local_status_dirs, hd, hf]
        exact hmsg

/-! ## Claim theorems -/

/-- Claim C1, the code evaluated at the documented qstat output: skip_while
stops at the first line containing the dash marker instead of after it, so
the divider row itself is parsed as a data row and its first field, a run
of dashes, joins the returned set next to the data-row job id.  The claim
says the returned set is exactly the set of data-row first fields and that
the divider first field is never in it; the code returns both. -/
theorem c1_status_divider_included :
    pbs_status qstat_maple = .ok ["---------------", "819446"]
    ∧ ("---------------" : String) ≠ "819446" := by
  exact ⟨by rfl, by decide⟩

/-- Claim C2 counterexample: for stdout "your job 12345 submitted" the code
extracts the last whitespace token "submitted", not "12345" as claimed. -/
theorem c2_counterexample :
    extract_jobid ("your job 12345 submitted") = "submitted"
    ∧ ("submitted" : String) ≠ "12345" := by
  exact ⟨by rfl, by decide⟩

/-- Claim C2 (amended): on an immediately successful execution submit_inner
returns Ok of the last whitespace-delimited token of the trimmed stdout;
when the trimmed stdout has no token the sentinel "no jobid" is returned
rather than a failure; concretely, stdout "your job 12345 submitted"
yields "submitted" (its last token) and empty stdout yields "no jobid". -/
theorem c2_jobid_extraction (sleep_int : Nat) (o : Output) (trace : Nat → Attempt)
    (s : String) (hs : o.success = true) (h0 : trace 0 = .out o) :
    submit_inner sleep_int trace = (.ok (extract_jobid o.stdout), 0)
    ∧ (trimChars s.data = [] → extract_jobid s = "no jobid")
    ∧ extract_jobid ("your job 12345 submitted") = "submitted"
    ∧ extract_jobid ("") = "no jobid" := by
  refine ⟨?_, ?_, by rfl, by rfl⟩
  · have := submit_inner_go_ok sleep_int 0 5 0 trace o (by omega)
      (by intro j hj; exact absurd hj (by omega)) (by simpa using h0) hs
    simpa [submit_inner] using this
  · intro h
    simp [extract_jobid, h, splitWs, splitWsGo]

/-- Witness for the amended claim C2 at a concrete successful execution. -/
theorem c2_jobid_extraction_witness :
    ({ success := true, stdout := "done 42", stderr := "" } : Output).success = true
    ∧ submit_inner 1 (fun _ => .out { success := true, stdout := "done 42", stderr := "" }) =
        (.ok ("42"), 0) := by
  have h := c2_jobid_extraction 1 { success := true, stdout := "done 42", stderr := "" }
    (fun _ => .out { success := true, stdout := "done 42", stderr := "" }) ("") rfl rfl
  refine ⟨rfl, ?_⟩
  rw [h.1]
  rfl

/-- Claim C3: on non-zero exits submit_inner retries up to 5 more attempts
with one sleep of sleep_int seconds before each retry; a success on retry
attempt k returns the same extracted job id as an immediate success with
that stdout, after k sleeps; after 6 failed executions it panics carrying
the captured output of the last attempt, and a panic can only happen when
all 6 allowed executions exited non-zero. -/
theorem c3_submit_retry (sleep_int k : Nat) (trace : Nat → Attempt) (o : Output)
    (hk : k ≤ 5)
    (hfail : ∀ j, j < k → FailsAt trace j)
    (hsucc : trace k = .out o) (hos : o.success = true) :
    submit_inner sleep_int trace = (.ok (extract_jobid o.stdout), k * sleep_int)
    ∧ (∀ tr : Nat → Attempt, (∀ j, j ≤ 5 → FailsAt tr j) →
        ∃ o5, tr 5 = .out o5 ∧ submit_inner sleep_int tr = (.panicked o5, 5 * sleep_int))
    ∧ (∀ tr : Nat → Attempt, ∀ o2 : Output, (submit_inner sleep_int tr).1 = .panicked o2 →
        ∀ j, j ≤ 5 → FailsAt tr j) := by
  refine ⟨?_, ?_, ?_⟩
  · have := submit_inner_go_ok sleep_int k 5 0 trace o hk (by simpa using hfail)
      (by simpa using hsucc) hos
    simpa [submit_inner] using this
  · intro tr h
    obtain ⟨o5, h5, _, hgo⟩ := submit_inner_go_panic sleep_int 5 0 tr (by simpa using h)
    exact ⟨o5, by simpa using h5, by simpa [submit_inner] using hgo⟩
  · intro tr o2 h j hj
    have := submit_inner_go_panic_inv sleep_int 5 0 tr o2 (by simpa [submit_inner] using h) j hj
    simpa using this

/-- Witness for claim C3: two non-zero exits, then a success, with
sleep_int 7: the job id of the successful stdout is returned and 14
seconds were slept. -/
theorem c3_submit_retry_witness :
    2 ≤ 5
    ∧ submit_inner 7 (fun i => if i < 2
        then .out { success := false, stdout := "", stderr := "x" }
        else .out { success := true, stdout := "ok 9", stderr := "" }) =
      (.ok ("9"), 14) := by
  have h := c3_submit_retry 7 2 (fun i => if i < 2
        then .out { success := false, stdout := "", stderr := "x" }
        else .out { success := true, stdout := "ok 9", stderr := "" })
      { success := true, stdout := "ok 9", stderr := "" }
      (by omega)
      (by intro j hj
          refine ⟨{ success := false, stdout := "", stderr := "x" }, ?_, rfl⟩
          simp [hj])
      (by rfl) rfl
  refine ⟨by omega, ?_⟩
  rw [h.1]
  rfl

/-- Claim C4 counterexample: the worker checks the stop signal before every
deletion and shutdown starts the rendezvous signal send right after closing
the channel, so an interleaving in which the first check already observes
the signal is possible; under it no queued file is attempted, refuting the
guarantee that every filename sent before the close is attempted. -/
theorem c4_counterexample :
    (dump_worker (fun _ => true) (fun _ => true) ["a", "b"] 0).1 = []
    ∧ ("a" : String) ∉ (dump_worker (fun _ => true) (fun _ => true) ["a", "b"] 0).1 := by
  exact ⟨by rfl, by decide⟩

/-- Claim C4 (amended): the filenames the worker attempts are a prefix of
the queued order, so attempts are never re-ordered; deletion outcomes do
not influence which files are attempted, so a missing file does not
prevent later attempts; and in every run in which the stop signal is not
observed, all filenames sent before the channel close are attempted in
order before the worker exits.  Files queued behind an observed stop
signal may be dropped. -/
theorem c4_shutdown_order (signalAt : Nat → Bool) (delOk delOk2 : String → Bool)
    (fs : List String) (i : Nat) :
    (∃ n, (dump_worker signalAt delOk fs i).1 = fs.take n)
    ∧ (dump_worker signalAt delOk fs i).1 = (dump_worker signalAt delOk2 fs i).1
    ∧ ((∀ j, signalAt j = false) → (dump_worker signalAt delOk fs i).1 = fs) := by
  induction fs generalizing i with
  | nil =>
    exact ⟨⟨0, by simp [dump_worker]⟩, by simp [dump_worker], fun _ => by simp [dump_worker]⟩
  | cons f fs ih =>
    cases hsig : signalAt i with
    | true =>
      refine ⟨⟨0, by simp [dump_worker, hsig]⟩, by simp [dump_worker, hsig], fun hall => ?_⟩
      exact absurd (hall i) (by simp [hsig])
    | false =>
      obtain ⟨⟨n, hn⟩, hind, hall⟩ := ih (i + 1)
      refine ⟨⟨n + 1, ?_⟩, ?_, fun ha => ?_⟩
      · simp [dump_worker, hsig, hn]
      · simp [dump_worker, hsig, hind]
      · simp [dump_worker, hsig, hall ha]

/-- Claim C5: the Molpro-variant submit invokes the submit command qsub
with the subprocess working directory set to the script containing
directory and with the single argument the script base filename; the base
filename contains no slash, so a full or cross-directory path is never
passed. -/
theorem c5_molpro_submit_cwd (q : Pbs) (filename : String) :
    q.molpro_submit_cmd filename =
      { program := "qsub", args := [file_name filename], cwd := some (parent filename) }
    ∧ ∀ c ∈ (file_name filename).data, c ≠ '/' := by
  refine ⟨rfl, ?_⟩
  intro c hc
  have h1 : c ∈ filename.data.reverse.takeWhile (fun x => x != '/') := by
    simpa [file_name] using hc
  have h2 := List.mem_takeWhile_imp h1
  simpa using h2

/-- Claim C6 counterexample: with a caller-supplied override template
consisting of the filename placeholder alone, the body written by the
Molpro variant still contains the placeholder verbatim and does not
contain the script path: the Molpro variant never substitutes the
filename token, while the claim says both variants replace it. -/
theorem c6_counterexample :
    strContains (molpro_write_body (pbs0 (some filename_token)) [] ("a/b.pbs"))
      filename_token = true
    ∧ strContains (molpro_write_body (pbs0 (some filename_token)) [] ("a/b.pbs"))
        ("a/b.pbs") = false := by
  exact ⟨by rfl, by rfl⟩

/-- Claim C6 (amended): for every template, the Mopac variant renders the
header by substituting every basename-token occurrence and then every
filename-token occurrence, while the Molpro variant substitutes only the
basename token and leaves filename tokens verbatim; a pattern that does
not occur in a template is left unchanged, and the built-in Molpro
default template contains no filename token, so on the built-in defaults
both variants agree with the claimed substitution. -/
theorem c6_template_substitution (q : Pbs) (t pat repl : String)
    (infiles : List String) (filename : String) :
    mopac_write_body { q with template := some t } infiles filename =
      infiles.foldl
        (fun b f => b ++ "/ddn/home1/r2518/Packages/mopac/build/mopac " ++ f ++ ".mop\n")
        (strReplace (strReplace t basename_token (file_name filename)) filename_token filename)
    ∧ molpro_write_body { q with template := some t } infiles filename =
        (infiles.foldl
          (fun b f => b ++ "molpro -t $NCPUS --no-xml-output \"" ++ file_name f ++ "\".inp\n")
          (strReplace t basename_token (file_name filename))) ++ "rm -rf $TMPDIR\n"
    ∧ (strContains t pat = false → strReplace t pat repl = t)
    ∧ strContains molpro_default_submit_script filename_token = false := by
  refine ⟨rfl, rfl, ?_, by decide⟩
  intro h
  show (⟨replaceAll pat.data repl.data t.data⟩ : String) = t
  rw [replaceAll_of_not_contains pat.data repl.data t.data h]

/-- Witness for the amended claim C6: a pattern absent from a template is
left unchanged, at concrete strings. -/
theorem c6_template_substitution_witness :
    strContains ("abc") ("zz") = false
    ∧ strReplace ("abc") ("zz") ("y") = "abc" :=
  ⟨by decide,
    (c6_template_substitution (pbs0 none) ("abc") ("zz") ("y") [] ("f")).2.2.1 (by decide)⟩

/-- Claim C7: for status tables of the documented shape (preamble lines
without the dash marker, then the dashed divider row, which itself splits
into the expected 11 fields), Pbs::status raises the assertion failure if
and only if some row after the divider splits into a field count other
than 11: a bad row is a hard parse failure, never silently skipped. -/
theorem c7_status_assert (pre : List String) (divider : String) (rows : List String)
    (hpre : ∀ l ∈ pre, strContains l dashes = false)
    (hdiv : strContains divider dashes = true)
    (hdivf : (splitWs divider.data).length = 11) :
    (∃ e, pbs_status (pre ++ divider :: rows) = .error e) ↔
      ∃ l ∈ rows, (splitWs l.data).length ≠ 11 := by
  unfold pbs_status
  rw [List.dropWhile_append_of_pos (by intro a ha; simp [hpre a ha])]
  rw [List.dropWhile_cons]
  simp only [hdiv, Bool.not_true, Bool.false_eq_true, if_false]
  simp only [pbsStatusGo, hdivf, if_true]
  have hiff := pbsStatusGo_error_iff rows
  cases hgo : pbsStatusGo rows with
  | ok ids =>
    rw [hgo] at hiff
    simp only [hgo]
    constructor
    · rintro ⟨e, he⟩; exact absurd he (by simp)
    · intro hbad
      exact absurd (hiff.mpr hbad) (by rintro ⟨e, he⟩; exact absurd he (by simp))
  | error e =>
    rw [hgo] at hiff
    simp only [hgo]
    constructor
    · intro _; exact hiff.mp ⟨e, rfl⟩
    · intro _; exact ⟨e, rfl⟩

/-- Witness for claim C7 at the documented table shape with one bad data
row of three fields: the assertion failure is raised. -/
theorem c7_status_assert_witness :
    (∀ l ∈ qstat_maple_preamble ++ [qstat_maple_header], strContains l dashes = false)
    ∧ strContains qstat_maple_divider dashes = true
    ∧ (splitWs qstat_maple_divider.data).length = 11
    ∧ ∃ e, pbs_status ((qstat_maple_preamble ++ [qstat_maple_header])
        ++ qstat_maple_divider :: [("a b c")]) = .error e := by
  refine ⟨by decide, by decide, by decide, ?_⟩
  exact (c7_status_assert (qstat_maple_preamble ++ [qstat_maple_header]) qstat_maple_divider
    [("a b c")] (by decide) (by decide) (by decide)).mpr ⟨("a b c"), by simp, by decide⟩

/-- Claim C8: the status method of the Local executor panics on every
invocation, whatever the filesystem reads return, and never returns a set
of job ids. -/
theorem c8_local_status_panics (readDir : String → Except String (List String))
    (readFile : String → Except String String) :
    (∃ msg, local_status readDir readFile = .panicked msg)
    ∧ ∀ ids, local_status readDir readFile ≠ .returned ids := by
  obtain ⟨msg, hmsg⟩ := local_status_dirs_panics readDir readFile ["opt", "pts", "freqs"]
  refine ⟨⟨msg, hmsg⟩, ?_⟩
  intro ids h
  simp only [local_status] at h
  rw [hmsg] at h
  exact absurd h (by simp)

/-- Claim C9: deletion failures never influence which files the Dump
worker goes on to attempt (the attempted sequence is the same whatever the
deletion outcomes, so it continues past failures), and the stderr log is
exactly the failed deletions among the attempted files, in order; the
worker produces nothing but this list and log, so no deletion failure is
propagated to the sender. -/
theorem c9_dump_failures_logged (signalAt : Nat → Bool) (delOk delOk2 : String → Bool)
    (fs : List String) (i : Nat) :
    (dump_worker signalAt delOk fs i).1 = (dump_worker signalAt delOk2 fs i).1
    ∧ (dump_worker signalAt delOk fs i).2 =
        (dump_worker signalAt delOk fs i).1.filter (fun f => !delOk f) := by
  induction fs generalizing i with
  | nil => simp [dump_worker]
  | cons f fs ih =>
    cases hsig : signalAt i with
    | true => simp [dump_worker, hsig]
    | false =>
      obtain ⟨h1, h2⟩ := ih (i + 1)
      constructor
      · simp [dump_worker, hsig, h1]
      · simp only [dump_worker, hsig, Bool.false_eq_true, if_false]
        rw [h2]
        cases hd : delOk f <;> simp [List.filter_cons, hd]

/-- Claim C10: Local::new ignores its job_limit, sleep_int, no_del and
template arguments — the constructed value is independent of them — and
the accessors return the constants 1600, 1 and false regardless of what
was supplied. -/
theorem c10_local_new_ignores (chunk_size job_limit sleep_int : Nat) (dir : String)
    (no_del : Bool) (template : Option String)
    (job_limit2 sleep_int2 : Nat) (no_del2 : Bool) (template2 : Option String) :
    Local.new chunk_size job_limit sleep_int dir no_del template =
      Local.new chunk_size job_limit2 sleep_int2 dir no_del2 template2
    ∧ (Local.new chunk_size job_limit sleep_int dir no_del template).job_limit = 1600
    ∧ (Local.new chunk_size job_limit sleep_int dir no_del template).sleep_int = 1
    ∧ (Local.new chunk_size job_limit sleep_int dir no_del template).no_del = false :=
  ⟨rfl, rfl, rfl, rfl⟩

end Psqs
